import Mathlib

/-!
Shallow embedding of the watering app's irrigation core: the AI auto-water
route (`src/app/api/cron/auto-water/route.ts`, Gemini version), the
check-and-stop route, the Supabase session-store helpers
(`src/lib/supabase.ts`) and the Tuya signed device client's token cache
(`src/lib/tuya.ts`).  Network calls (Tuya, Supabase, Gemini) are modelled
by explicit outcome parameters in an environment record; timestamps are
rationals standing for JavaScript millisecond epoch numbers.
-/

/-- Tuya device status values: the TypeScript union `boolean | number | string`. -/
inductive TuyaVal where
  | b (bv : Bool)
  | n (q : ℚ)
  | s (sv : String)
deriving DecidableEq

/-- A JavaScript number that may be NaN (for example the result of `Number("abc")`). -/
inductive JSNum where
  | nan
  | num (q : ℚ)
deriving DecidableEq

/-- Decimal parse of a character list: the accumulated value for an all-digit list,
none as soon as a non-digit appears. -/
def parseDecimal (cs : List Char) (acc : Nat) : Option Nat :=
  match cs with
  | [] => some acc
  | c :: rest =>
    if c.isDigit then parseDecimal rest (acc * 10 + (c.toNat - 48)) else none

/-- JavaScript `Number()` applied to a string, modelled for the value shapes that occur
here: the empty string converts to 0, a plain digit string to its decimal value, and a
non-numeric string to NaN. -/
def jsStringToNumber (sv : String) : JSNum :=
  match sv.data with
  | [] => JSNum.num 0
  | c :: rest =>
    match parseDecimal (c :: rest) 0 with
    | some natv => JSNum.num natv
    | none => JSNum.nan

/-- The conversion `typeof status.value === "number" ? status.value : Number(status.value)`
from `getStatusValue` in the auto-water route. -/
def toNumber : TuyaVal → JSNum
  | TuyaVal.n q => JSNum.num q
  | TuyaVal.b bv => JSNum.num (if bv then 1 else 0)
  | TuyaVal.s sv => jsStringToNumber sv

/-- JavaScript `<` between a possibly-NaN number and a numeric constant: every
comparison involving NaN is false. -/
def jsLt (m : JSNum) (k : ℚ) : Bool :=
  match m with
  | JSNum.nan => false
  | JSNum.num q => decide (q < k)

/-- `getStatusValue` from the auto-water route: walk the preference-ordered list of
status codes, return the first found entry whose value is defined, coerced to a number
(`Option TuyaVal` models a possibly-`undefined` JavaScript value; the outer `Option`
models the function's `number | null` result). -/
def getStatusValue (status : List (String × Option TuyaVal)) : List String → Option JSNum
  | [] => none
  | code :: rest =>
    match status.find? (fun st => st.1 == code) with
    | some (_, some v) => some (toNumber v)
    | _ => getStatusValue status rest

/-- The decision shape returned by the decision engine (TypeScript interface
`WateringDecision`; the confidence tag is kept as a string). -/
structure WateringDecision where
  shouldWater : Bool
  durationMinutes : ℚ
  reason : String
  confidence : String
deriving DecidableEq

def MAX_WATERING_DURATION : ℚ := 45

def MIN_WATERING_DURATION : ℚ := 10

/-- The constraint-enforcement block of `getAIWateringDecision`: lower a duration above
the maximum to the maximum; then, if watering with a duration below the minimum, raise
it to the minimum. -/
def enforceConstraints (d : WateringDecision) : WateringDecision :=
  let d1 :=
    if d.durationMinutes > MAX_WATERING_DURATION then
      { d with durationMinutes := MAX_WATERING_DURATION }
    else d
  if d1.shouldWater && decide (d1.durationMinutes < MIN_WATERING_DURATION) then
    { d1 with durationMinutes := MIN_WATERING_DURATION }
  else d1

/-- `getAIWateringDecision` from the auto-water route.  The Gemini call is modelled by
`advisory`: `some d` when the call succeeds and a JSON object was extracted and parsed
(`d` being the parsed decision), `none` when the call or extraction fails.  `moisture`
is the (possibly NaN) sensor number.  Temperature, weather data and history are embedded
only in the prompt text and do not affect the returned decision, so they are omitted. -/
def getAIWateringDecision (geminiKeySet : Bool) (moisture : JSNum)
    (advisory : Option WateringDecision) : WateringDecision :=
  if !geminiKeySet then
    let sw := jsLt moisture 35
    ⟨sw, if sw then 30 else 0,
      "Gemini API not configured - using fallback threshold of 35%", "low"⟩
  else
    match advisory with
    | some d => enforceConstraints d
    | none =>
      let sw := jsLt moisture 30
      ⟨sw, if sw then 30 else 0, "AI analysis failed, using fallback", "low"⟩

/-- A row of the `watering_events` table, with the fields the core reads or writes.
Timestamps are millisecond epoch numbers (ISO strings compare chronologically, so the
store's string comparisons are modelled by numeric comparison). -/
structure StoredEvent where
  id : String
  zone_id : String
  started_at : ℚ
  ended_at : Option ℚ
  duration_seconds : Option ℤ
  scheduled_end_at : Option ℚ
  trigger : String
deriving DecidableEq

/-- A device command sent through the signed client: device id, code, boolean value. -/
structure DeviceCommand where
  deviceId : String
  code : String
  value : Bool
deriving DecidableEq

def FRONT_TAP_DEVICE_ID : String := "bf9d467329b87e8748kbam"

def SOIL_SENSOR_DEVICE_ID : String := "bf455b6fdac1b8d5b9kagj"

def ZONE_ID : String := "zone-1"

def ZONE_NAME : String := "Front Right Garden Hedges"

/-- A Supabase `update(...).eq("id", i)`: apply `f` to every row whose id is `i`. -/
def updateEvent (i : String) (f : StoredEvent → StoredEvent)
    (store : List StoredEvent) : List StoredEvent :=
  store.map (fun r => if r.id == i then f r else r)

/-- A Supabase `select(...).eq("id", i).single()`: the first row with id `i`. -/
def findEvent (i : String) (store : List StoredEvent) : Option StoredEvent :=
  store.find? (fun r => r.id == i)

/-- `hasActiveAutomatedWatering` from `supabase.ts`: false when the client is not
configured; false when the query for null-ended events of the zone errors; otherwise
whether at least one such event exists (the query's `limit 1` and `length > 0`). -/
def hasActiveAutomatedWatering (configured : Bool) (queryOk : Bool) (zoneId : String)
    (store : List StoredEvent) : Bool :=
  if !configured then false
  else if !queryOk then false
  else !(store.filter (fun e => e.zone_id == zoneId && e.ended_at.isNone)).isEmpty

/-- `startScheduledWatering` from `supabase.ts`: on a configured client and successful
insert, creates one automated event with `scheduled_end_at = startedAt + durationMinutes`
minutes, returning its id; otherwise creates nothing and returns null.  `newId` stands
for the row id generated by the database; the zones upsert touches only the zones table
and is not modelled.  `zoneName` and `deviceId` feed only that upsert. -/
def startScheduledWatering (configured : Bool) (insertOk : Bool) (newId : String)
    (now : ℚ) (zoneId : String) (zoneName : String) (deviceId : String)
    (durationMinutes : ℚ) : Option String × List StoredEvent :=
  if !configured then (none, [])
  else if !insertOk then (none, [])
  else
    (some newId,
      [{ id := newId, zone_id := zoneId, started_at := now, ended_at := none,
         duration_seconds := none,
         scheduled_end_at := some (now + durationMinutes * 60 * 1000),
         trigger := "automated" }])

/-- `logWateringEnd` from `supabase.ts`: look up the event's start, compute the elapsed
duration in rounded seconds, and set `ended_at`/`duration_seconds` on the row; returns
false without touching the store when the client is unconfigured, when the event row is
missing, or when the update errors. -/
def logWateringEnd (configured : Bool) (updateOk : Bool) (now : ℚ)
    (store : List StoredEvent) (eventId : String) : Bool × List StoredEvent :=
  if !configured then (false, store)
  else
    match findEvent eventId store with
    | none => (false, store)
    | some ev =>
      let durationSeconds : ℤ := round ((now - ev.started_at) / 1000)
      if updateOk then
        (true,
          updateEvent eventId
            (fun r =>
              { r with ended_at := some now, duration_seconds := some durationSeconds })
            store)
      else (false, store)

/-- The selection predicate of `getWateringToStop`: null `ended_at`, non-null
`scheduled_end_at`, and `scheduled_end_at` strictly before now. -/
def wateringToStopPred (now : ℚ) (e : StoredEvent) : Bool :=
  e.ended_at.isNone &&
    (match e.scheduled_end_at with
      | some t => decide (t < now)
      | none => false)

/-- `getWateringToStop` from `supabase.ts`: the expired active sessions, or the empty
list when the client is unconfigured or the query errors. -/
def getWateringToStop (configured : Bool) (queryOk : Bool) (now : ℚ)
    (store : List StoredEvent) : List StoredEvent :=
  if !configured then []
  else if !queryOk then []
  else store.filter (wateringToStopPred now)

/-- The selection predicate of `closeStaleWateringEvents`: null `ended_at` and a start
more than four hours before now. -/
def stalePred (now : ℚ) (e : StoredEvent) : Bool :=
  e.ended_at.isNone && decide (e.started_at < now - 4 * 60 * 60 * 1000)

/-- The per-event update of `closeStaleWateringEvents`: estimated end 30 minutes after
the recorded start, estimated duration 1800 seconds.  `e` is the fetched stale event
(its `started_at` feeds the estimate), `r` the row being updated. -/
def closeStaleUpdate (e : StoredEvent) (r : StoredEvent) : StoredEvent :=
  { r with ended_at := some (e.started_at + 30 * 60 * 1000),
           duration_seconds := some 1800 }

/-- The update loop of `closeStaleWateringEvents` over the fetched stale events:
each successful update closes the row with that id and is counted. -/
def closeStaleLoop (updateOk : String → Bool) :
    List StoredEvent → List StoredEvent → Nat × List StoredEvent
  | [], store => (0, store)
  | e :: rest, store =>
    let store1 :=
      if updateOk e.id then updateEvent e.id (closeStaleUpdate e) store else store
    let res := closeStaleLoop updateOk rest store1
    ((if updateOk e.id then 1 else 0) + res.1, res.2)

/-- Outcome of a stale-reconciliation sweep: how many rows were closed, the resulting
store, and the device commands issued during the sweep (the source issues none). -/
structure StaleOutcome where
  closedCount : Nat
  store : List StoredEvent
  commands : List DeviceCommand
deriving DecidableEq

/-- `closeStaleWateringEvents` from `supabase.ts`: select events with null end started
more than four hours ago and close each with the 30-minute estimate; no device command
is ever sent.  `findOk` models the selection query outcome. -/
def closeStaleWateringEvents (configured : Bool) (findOk : Bool)
    (updateOk : String → Bool) (now : ℚ) (store : List StoredEvent) : StaleOutcome :=
  if !configured then ⟨0, store, []⟩
  else if !findOk then ⟨0, store, []⟩
  else
    let staleEvents := store.filter (stalePred now)
    if staleEvents.isEmpty then ⟨0, store, []⟩
    else
      let res := closeStaleLoop updateOk staleEvents store
      ⟨res.1, res.2, []⟩

/-- `verifyCronSecret`, shared by both cron routes: with no configured secret every
request is allowed; otherwise the authorization header must be the bearer secret. -/
def verifyCronSecret (cronSecret : Option String) (authHeader : Option String) : Bool :=
  match cronSecret with
  | none => true
  | some sv => authHeader == some ("Bearer " ++ sv)

def offCommand : DeviceCommand := ⟨FRONT_TAP_DEVICE_ID, "switch", false⟩

def onCommand : DeviceCommand := ⟨FRONT_TAP_DEVICE_ID, "switch", true⟩

/-- Accumulated outcome of the check-and-stop loop. -/
structure StopOutcome where
  store : List StoredEvent
  commands : List DeviceCommand
  errors : List String
  stoppedCount : Nat
deriving DecidableEq

/-- The per-event loop of the check-and-stop route: send the tap an off command; on
command failure record an error and leave the row alone; on success call
`logWateringEnd` and count the event as stopped (whether or not the log write
succeeded). `offOk`/`updateOk` give each call's outcome by event id. -/
def stopLoop (configured : Bool) (offOk updateOk : String → Bool) (now : ℚ) :
    List StoredEvent → List StoredEvent → StopOutcome
  | [], store => ⟨store, [], [], 0⟩
  | e :: rest, store =>
    if offOk e.id then
      let res1 := logWateringEnd configured (updateOk e.id) now store e.id
      let res := stopLoop configured offOk updateOk now rest res1.2
      ⟨res.store, offCommand :: res.commands, res.errors, res.stoppedCount + 1⟩
    else
      let res := stopLoop configured offOk updateOk now rest store
      ⟨res.store, offCommand :: res.commands, e.id :: res.errors, res.stoppedCount⟩

/-- Environment of one check-and-stop invocation.  `currentHour` is the ambient local
hour of day; the route never reads it (it has no time-window gate), which the theorems
below make explicit. -/
structure StopEnv where
  cronSecret : Option String
  authHeader : Option String
  configured : Bool
  queryOk : Bool
  events : List StoredEvent
  offOk : String → Bool
  updateOk : String → Bool
  now : ℚ
  currentHour : Nat

/-- Structured response of the check-and-stop route. -/
structure StopResult where
  httpStatus : Nat
  success : Bool
  action : Option String
  store : List StoredEvent
  commands : List DeviceCommand
  stoppedCount : Nat
  totalEvents : Nat
deriving DecidableEq

/-- `GET` of the check-and-stop route (`src/unnamed/part_003`): verify the cron secret,
fetch the expired active sessions, and run the stop loop over them. -/
def waterCheckGET (env : StopEnv) : StopResult :=
  if !verifyCronSecret env.cronSecret env.authHeader then
    ⟨401, false, none, env.events, [], 0, 0⟩
  else
    let eventsToStop := getWateringToStop env.configured env.queryOk env.now env.events
    if eventsToStop.isEmpty then
      ⟨200, true, some "none", env.events, [], 0, 0⟩
    else
      let res := stopLoop env.configured env.offOk env.updateOk env.now eventsToStop
        env.events
      ⟨200, res.errors.isEmpty, some "stopped", res.store, res.commands,
        res.stoppedCount, eventsToStop.length⟩

/-- A Tuya device as seen through `getDeviceStatus`. -/
structure DeviceState where
  online : Bool
  status : List (String × Option TuyaVal)
deriving DecidableEq

/-- Environment of one auto-water invocation.  `currentHour` is the Melbourne-local
hour computed by `isWithinWateringHours`; `sensor`/`tap` are the `getDeviceStatus`
results (`none` covering an error or missing device); `advisory` is the outcome of the
Gemini call as in `getAIWateringDecision`; `newId` is the database-generated id for a
created session row. -/
structure AutoEnv where
  cronSecret : Option String
  authHeader : Option String
  currentHour : Nat
  supabaseConfigured : Bool
  activeQueryOk : Bool
  events : List StoredEvent
  sensor : Option DeviceState
  tap : Option DeviceState
  turnOnOk : Bool
  geminiKeySet : Bool
  advisory : Option WateringDecision
  insertOk : Bool
  newId : String
  now : ℚ

/-- Structured response of the auto-water route, together with the device commands it
sent and the session rows it created. -/
structure AutoResult where
  httpStatus : Nat
  success : Bool
  action : Option String
  reason : Option String
  errMsg : Option String
  commands : List DeviceCommand
  sessionInserts : List StoredEvent
deriving DecidableEq

def MOISTURE_CODES : List String := ["humidity", "soil_humidity", "humidity_value", "moisture"]

/-- Tail of the auto-water route from the AI decision on: skip with action "none" when
not watering, else check the tap is online, send the on command, and only on its success
insert the session row. -/
def GETautoAfterMoisture (env : AutoEnv) (moisture : JSNum) : AutoResult :=
  let decision := getAIWateringDecision env.geminiKeySet moisture env.advisory
  if !decision.shouldWater then
    ⟨200, true, some "none", none, none, [], []⟩
  else
    match env.tap with
    | none => ⟨500, false, none, none, some "Front tap is offline", [], []⟩
    | some tapDev =>
      if !tapDev.online then
        ⟨500, false, none, none, some "Front tap is offline", [], []⟩
      else if !env.turnOnOk then
        ⟨500, false, none, none, some "Failed to turn on water", [onCommand], []⟩
      else
        let started := startScheduledWatering env.supabaseConfigured env.insertOk
          env.newId env.now ZONE_ID ZONE_NAME FRONT_TAP_DEVICE_ID
          decision.durationMinutes
        ⟨200, true, some "started", none, none, [onCommand], started.2⟩

/-- Auto-water route after a successful sensor read: parse the moisture value out of the
status list; a null parse is an error before any decision is made. -/
def GETautoAfterSensor (env : AutoEnv) (dev : DeviceState) : AutoResult :=
  match getStatusValue dev.status MOISTURE_CODES with
  | none => ⟨500, false, none, none, some "Could not read moisture level", [], []⟩
  | some moisture => GETautoAfterMoisture env moisture

/-- `GET` of the AI auto-water route: cron-secret check, time-window gate, active-session
guard, sensor read, moisture parse, AI decision, tap online check, on command, session
insert — in source order.  The soil-reading insert touches only the `soil_readings`
table and is not part of the result. -/
def GETauto (env : AutoEnv) : AutoResult :=
  if !verifyCronSecret env.cronSecret env.authHeader then
    ⟨401, false, none, none, some "Unauthorized", [], []⟩
  else if !(decide (6 ≤ env.currentHour) && decide (env.currentHour < 22)) then
    ⟨200, true, some "skipped", some "Outside watering hours", none, [], []⟩
  else if hasActiveAutomatedWatering env.supabaseConfigured env.activeQueryOk ZONE_ID
      env.events then
    ⟨200, true, some "skipped", some "Watering already in progress", none, [], []⟩
  else
    match env.sensor with
    | none => ⟨500, false, none, none, some "Failed to read soil sensor", [], []⟩
    | some dev => GETautoAfterSensor env dev

/-- The signed client's process-local credential cache: token and absolute expiry. -/
structure CachedToken where
  token : String
  expiry : ℚ
deriving DecidableEq

/-- The token endpoint's result (TypeScript `TuyaTokenResult`); `expire_time` is the
provider-reported validity in seconds from now. -/
structure TuyaTokenResult where
  access_token : String
  expire_time : ℚ
  refresh_token : String
  uid : String
deriving DecidableEq

def TOKEN_SAFETY_MARGIN_MS : ℚ := 60000

/-- The fetch-and-cache tail of `getAccessToken`: a failed token request throws; a
successful one stores the token with expiry `now + expire_time·1000 − 60000` ms and
returns it. -/
def fetchAndCache (now : ℚ) (fetchResult : Except String TuyaTokenResult) :
    Except String (String × Option CachedToken) :=
  match fetchResult with
  | Except.error e => Except.error e
  | Except.ok r =>
    Except.ok (r.access_token,
      some ⟨r.access_token, now + r.expire_time * 1000 - TOKEN_SAFETY_MARGIN_MS⟩)

/-- `getAccessToken` from `tuya.ts`: with unconfigured credentials it throws; with a
cached token not yet past its stored expiry it returns the cached token and leaves the
cache untouched; otherwise it fetches and replaces the cache.  The cache is the only
state the function touches, passed in and returned explicitly. -/
def getAccessToken (credentialsConfigured : Bool) (now : ℚ)
    (fetchResult : Except String TuyaTokenResult) (cache : Option CachedToken) :
    Except String (String × Option CachedToken) :=
  if !credentialsConfigured then Except.error "Tuya credentials not configured"
  else
    match cache with
    | some c =>
      if now < c.expiry then Except.ok (c.token, some c)
      else fetchAndCache now fetchResult
    | none => fetchAndCache now fetchResult

/-- The row mutation `logWateringEnd` performs on the stopped event: end set to now,
duration the rounded elapsed seconds since the recorded start. -/
def stopClose (now : ℚ) (e : StoredEvent) : StoredEvent :=
  { e with ended_at := some now,
           duration_seconds := some (round ((now - e.started_at) / 1000)) }

/-- The expired active session used in the check-and-stop witnesses. -/
def c4Expired : StoredEvent := ⟨"e1", "zone-1", 0, none, none, some 100, "automated"⟩

/-- A concrete check-and-stop environment: one expired active session, one future one,
all device and store calls succeeding, invoked at hour 23 (outside watering hours). -/
def c4Env : StopEnv :=
  ⟨none, none, true, true,
    [c4Expired, ⟨"e2", "zone-1", 0, none, none, some 99999, "automated"⟩],
    fun _ => true, fun _ => true, 1000, 23⟩

/-- A check-and-stop environment whose device off command fails. -/
def c6Env : StopEnv :=
  ⟨none, none, true, true, [c4Expired], fun _ => false, fun _ => true, 1000, 12⟩

/-- A check-and-stop environment holding expired sessions of two different zones. -/
def c10Env : StopEnv :=
  ⟨none, none, true, true,
    [⟨"a1", "zone-1", 0, none, none, some 100, "automated"⟩,
     ⟨"a2", "zone-9", 0, none, none, some 200, "automated"⟩],
    fun _ => true, fun _ => true, 1000, 12⟩

/-- Store for the reconciliation witness: one six-hour-old open session and one already
closed session, at now = 25 hours in milliseconds. -/
def c8Store : List StoredEvent :=
  [⟨"s1", "zone-1", 68400000, none, none, none, "automated"⟩,
   ⟨"s2", "zone-1", 0, some 1800000, some 1800, none, "manual"⟩]

/-- Auto-water environment for the C5 witness: dry reading, advisory says water for 20
minutes, everything succeeding. -/
def c5Env : AutoEnv :=
  ⟨none, none, 12, true, true, [],
    some ⟨true, [("humidity", some (TuyaVal.n 20))]⟩, some ⟨true, []⟩, true, true,
    some ⟨true, 20, "dry soil", "high"⟩, true, "ev1", 0⟩

/-- Auto-water environment for the C2 witness: wet reading, Gemini unconfigured, so the
fallback declines to water. -/
def c2Env : AutoEnv :=
  ⟨none, none, 12, true, true, [],
    some ⟨true, [("humidity", some (TuyaVal.n 60))]⟩, some ⟨true, []⟩, true, false,
    none, true, "ev1", 0⟩

/-- Auto-water environment for the C3 witness: the sensor reports only a temperature
code, so every moisture code is missing. -/
def c3MissEnv : AutoEnv :=
  ⟨none, none, 12, true, true, [],
    some ⟨true, [("temp_current", some (TuyaVal.n 200))]⟩, some ⟨true, []⟩, true, true,
    some ⟨true, 20, "water", "high"⟩, true, "ev1", 0⟩

/-- Auto-water environment for the C3 counterexample: the sensor's humidity value is
the unparseable string "abc". -/
def c3NaNEnv : AutoEnv :=
  ⟨none, none, 12, false, true, [],
    some ⟨true, [("humidity", some (TuyaVal.s "abc"))]⟩, some ⟨true, []⟩, true, true,
    some ⟨true, 20, "water", "high"⟩, true, "ev1", 0⟩

/-- The same environment with a healthy but empty store: configured client, successful
query, no rows. -/
def healthyEmptyStore (env : AutoEnv) : AutoEnv :=
  { env with supabaseConfigured := true, activeQueryOk := true, events := [] }

/-- The observable response of the auto-water route: everything except the created
session rows. -/
def respOf (r : AutoResult) :
    Nat × Bool × Option String × Option String × Option String × List DeviceCommand :=
  (r.httpStatus, r.success, r.action, r.reason, r.errMsg, r.commands)

/-- Auto-water environment for the C9 witness: unconfigured store but an otherwise
healthy pipeline. -/
def c9Env : AutoEnv :=
  ⟨none, none, 12, false, false, [⟨"e9", "zone-1", 0, none, none, none, "automated"⟩],
    some ⟨true, [("humidity", some (TuyaVal.n 60))]⟩, some ⟨true, []⟩, true, false,
    none, true, "ev1", 0⟩

/-- The constraint block never changes the shouldWater flag. -/
theorem enforceConstraints_shouldWater (d : WateringDecision) :
    (enforceConstraints d).shouldWater = d.shouldWater := by
  simp only [enforceConstraints]
  split_ifs <;> rfl

/-- After the constraint block, a watering decision's duration lies in the safe range. -/
theorem enforceConstraints_mem (d : WateringDecision) (h : d.shouldWater = true) :
    MIN_WATERING_DURATION ≤ (enforceConstraints d).durationMinutes ∧
      (enforceConstraints d).durationMinutes ≤ MAX_WATERING_DURATION := by
  simp only [enforceConstraints, MIN_WATERING_DURATION, MAX_WATERING_DURATION] at h ⊢
  split_ifs with h1 h2 h3 <;>
    simp_all only [Bool.and_eq_true, decide_eq_true_eq, not_and, not_lt, gt_iff_lt,
      not_true, not_false_iff] <;>
    norm_num

/-- C1: every decision returned by the decision engine (advisory strategy or either
fallback) with `shouldWater = true` has `durationMinutes` within
`[MIN_WATERING_DURATION, MAX_WATERING_DURATION] = [10, 45]`; moreover on the advisory
path a raw duration above the maximum is lowered to the maximum, and a raw duration
below the minimum with `shouldWater` true is raised to the minimum. -/
theorem c1_decision_duration_clamped (geminiKeySet : Bool) (moisture : JSNum)
    (advisory : Option WateringDecision) :
    ((getAIWateringDecision geminiKeySet moisture advisory).shouldWater = true →
      MIN_WATERING_DURATION ≤
          (getAIWateringDecision geminiKeySet moisture advisory).durationMinutes ∧
        (getAIWateringDecision geminiKeySet moisture advisory).durationMinutes ≤
          MAX_WATERING_DURATION) ∧
    (∀ d, advisory = some d → geminiKeySet = true →
      (d.durationMinutes > MAX_WATERING_DURATION →
        (getAIWateringDecision geminiKeySet moisture advisory).durationMinutes =
          MAX_WATERING_DURATION) ∧
      (d.shouldWater = true → d.durationMinutes < MIN_WATERING_DURATION →
        (getAIWateringDecision geminiKeySet moisture advisory).durationMinutes =
          MIN_WATERING_DURATION)) := by
  constructor
  · intro hsw
    cases geminiKeySet with
    | false =>
      simp only [getAIWateringDecision, Bool.not_false, if_true] at hsw ⊢
      by_cases hm : jsLt moisture 35 = true
      · simp only [hm, if_true]
        norm_num [MIN_WATERING_DURATION, MAX_WATERING_DURATION]
      · simp [hm] at hsw
    | true =>
      cases advisory with
      | none =>
        simp only [getAIWateringDecision, Bool.not_true] at hsw ⊢
        by_cases hm : jsLt moisture 30 = true
        · simp only [hm, if_true] at hsw ⊢
          simp at hsw ⊢
          norm_num [MIN_WATERING_DURATION, MAX_WATERING_DURATION]
        · simp [hm] at hsw
      | some d =>
        have hred : getAIWateringDecision true moisture (some d) = enforceConstraints d := by
          simp [getAIWateringDecision]
        rw [hred] at hsw ⊢
        exact enforceConstraints_mem d ((enforceConstraints_shouldWater d) ▸ hsw)
  · rintro d rfl rfl
    have hred : getAIWateringDecision true moisture (some d) = enforceConstraints d := by
      simp [getAIWateringDecision]
    rw [hred]
    constructor
    · intro hgt
      simp only [enforceConstraints]
      rw [if_pos hgt]
      have hnotlt : ¬ (MAX_WATERING_DURATION < MIN_WATERING_DURATION) := by
        norm_num [MIN_WATERING_DURATION, MAX_WATERING_DURATION]
      simp [hnotlt]
    · intro hsw hlt
      have hngt : ¬ (d.durationMinutes > MAX_WATERING_DURATION) := by
        norm_num [MIN_WATERING_DURATION, MAX_WATERING_DURATION] at hlt ⊢
        linarith
      simp only [enforceConstraints]
      rw [if_neg hngt]
      simp [hsw, hlt]

/-- C1 witness: the theorem applied to a concrete advisory decision (raw duration 100,
watering) whose returned duration is clamped into the safe range. -/
theorem c1_decision_duration_clamped_witness :
    (getAIWateringDecision true JSNum.nan
        (some ⟨true, 100, "r", "high"⟩)).shouldWater = true ∧
      MIN_WATERING_DURATION ≤
          (getAIWateringDecision true JSNum.nan
            (some ⟨true, 100, "r", "high"⟩)).durationMinutes ∧
        (getAIWateringDecision true JSNum.nan
            (some ⟨true, 100, "r", "high"⟩)).durationMinutes ≤ MAX_WATERING_DURATION :=
  ⟨by decide,
    (c1_decision_duration_clamped true JSNum.nan (some ⟨true, 100, "r", "high"⟩)).1
      (by decide)⟩

theorem findEvent_updateEvent (i j : String) (f : StoredEvent → StoredEvent)
    (store : List StoredEvent) (hf : ∀ r, (f r).id = r.id) :
    findEvent i (updateEvent j f store) =
      (findEvent i store).map (fun r => if r.id == j then f r else r) := by
  induction store with
  | nil => rfl
  | cons a l ih =>
    have hid : (if a.id == j then f a else a).id = a.id := by
      split
      · exact hf a
      · rfl
    simp only [findEvent, updateEvent, List.map_cons, List.find?_cons] at ih ⊢
    rw [hid]
    cases ha : (a.id == i) with
    | true => simp
    | false => exact ih

theorem findEvent_id (i : String) (store : List StoredEvent) (e : StoredEvent)
    (h : findEvent i store = some e) : e.id = i := by
  have := List.find?_some h
  simpa using this

theorem findEvent_updateEvent_ne (i j : String) (f : StoredEvent → StoredEvent)
    (store : List StoredEvent) (hf : ∀ r, (f r).id = r.id) (hne : j ≠ i) :
    findEvent i (updateEvent j f store) = findEvent i store := by
  rw [findEvent_updateEvent i j f store hf]
  cases hfe : findEvent i store with
  | none => rfl
  | some e =>
    have hid : e.id = i := findEvent_id i store e hfe
    have hne2 : ¬ e.id = j := by
      rw [hid]
      exact fun hc => hne hc.symm
    simp [hne2]

theorem findEvent_updateEvent_self (i : String) (f : StoredEvent → StoredEvent)
    (store : List StoredEvent) (hf : ∀ r, (f r).id = r.id) (e : StoredEvent)
    (h : findEvent i store = some e) :
    findEvent i (updateEvent i f store) = some (f e) := by
  rw [findEvent_updateEvent i i f store hf, h]
  have hid : e.id = i := findEvent_id i store e h
  simp [hid]

theorem findEvent_of_nodup (store : List StoredEvent)
    (hnd : (store.map (fun r => r.id)).Nodup) (e : StoredEvent) (he : e ∈ store) :
    findEvent e.id store = some e := by
  induction store with
  | nil => cases he
  | cons a l ih =>
    have hnd2 : (a.id :: l.map (fun r => r.id)).Nodup := by
      rw [List.map_cons] at hnd
      exact hnd
    have hhead : a.id ∉ l.map (fun r => r.id) := (List.nodup_cons.mp hnd2).1
    have htail : (l.map (fun r => r.id)).Nodup := (List.nodup_cons.mp hnd2).2
    rcases List.mem_cons.mp he with rfl | hmem
    · simp [findEvent, List.find?_cons_of_pos]
    · have hne : (a.id == e.id) = false := by
        simp only [beq_eq_false_iff_ne, ne_eq]
        intro hc
        exact hhead (by rw [hc]; exact List.mem_map_of_mem _ hmem)
      simp only [findEvent, List.find?_cons, hne]
      simpa [findEvent] using ih htail hmem

theorem eq_of_mem_of_id_eq (store : List StoredEvent)
    (hnd : (store.map (fun r => r.id)).Nodup) (e e2 : StoredEvent)
    (he : e ∈ store) (he2 : e2 ∈ store) (hid : e.id = e2.id) : e = e2 := by
  have h1 := findEvent_of_nodup store hnd e he
  have h2 := findEvent_of_nodup store hnd e2 he2
  rw [hid, h2] at h1
  exact (Option.some_inj.mp h1).symm

theorem logWateringEnd_findEvent_ne (configured updateOk : Bool) (now : ℚ)
    (store : List StoredEvent) (eventId i : String) (hne : eventId ≠ i) :
    findEvent i (logWateringEnd configured updateOk now store eventId).2 =
      findEvent i store := by
  unfold logWateringEnd
  cases configured with
  | false => rfl
  | true =>
    simp only [Bool.not_true, Bool.false_eq_true, if_false]
    cases hfe : findEvent eventId store with
    | none => rfl
    | some ev =>
      cases updateOk with
      | false => rfl
      | true =>
        simp only [if_true]
        exact findEvent_updateEvent_ne i eventId _ store (fun r => rfl) hne

theorem stopLoop_findEvent_untouched (configured : Bool) (offOk updateOk : String → Bool)
    (now : ℚ) (l store : List StoredEvent) (i : String)
    (hl : ∀ e ∈ l, e.id ≠ i) :
    findEvent i (stopLoop configured offOk updateOk now l store).store =
      findEvent i store := by
  induction l generalizing store with
  | nil => rfl
  | cons a rest ih =>
    have ha : a.id ≠ i := hl a (List.mem_cons_self a rest)
    have hrest : ∀ e ∈ rest, e.id ≠ i := fun e he => hl e (List.mem_cons_of_mem a he)
    unfold stopLoop
    by_cases hoff : offOk a.id = true
    · simp only [hoff, if_true]
      rw [ih _ hrest]
      exact logWateringEnd_findEvent_ne configured (updateOk a.id) now store a.id i ha
    · simp only [hoff, if_false]
      exact ih _ hrest

theorem stopLoop_findEvent_closed (configured : Bool) (offOk updateOk : String → Bool)
    (now : ℚ) (l store : List StoredEvent) (e : StoredEvent)
    (hnd : (l.map (fun r => r.id)).Nodup) (hmem : e ∈ l)
    (hconf : configured = true) (hoff : offOk e.id = true) (hupd : updateOk e.id = true)
    (hfind : findEvent e.id store = some e) :
    findEvent e.id (stopLoop configured offOk updateOk now l store).store =
      some (stopClose now e) := by
  induction l generalizing store with
  | nil => cases hmem
  | cons a rest ih =>
    have hnd2 : (a.id :: rest.map (fun r => r.id)).Nodup := by
      rw [List.map_cons] at hnd
      exact hnd
    have hhead : a.id ∉ rest.map (fun r => r.id) := (List.nodup_cons.mp hnd2).1
    have htail : (rest.map (fun r => r.id)).Nodup := (List.nodup_cons.mp hnd2).2
    rcases List.mem_cons.mp hmem with rfl | hmem2
    · unfold stopLoop
      simp only [hoff, if_true]
      have hlog : findEvent e.id
          (logWateringEnd configured (updateOk e.id) now store e.id).2 =
            some (stopClose now e) := by
        unfold logWateringEnd
        simp only [hconf, hupd, Bool.not_true, Bool.false_eq_true, if_false, hfind,
          if_true]
        exact findEvent_updateEvent_self e.id
          (fun r =>
            { r with ended_at := some now,
                     duration_seconds := some (round ((now - e.started_at) / 1000)) })
          store (fun r => rfl) e hfind
      rw [stopLoop_findEvent_untouched configured offOk updateOk now rest _ e.id
        (fun x hx hc => hhead (by rw [← hc]; exact List.mem_map_of_mem _ hx))]
      exact hlog
    · have hne : a.id ≠ e.id := by
        intro hc
        exact hhead (by rw [hc]; exact List.mem_map_of_mem _ hmem2)
      unfold stopLoop
      by_cases hoffa : offOk a.id = true
      · simp only [hoffa, if_true]
        refine ih _ htail hmem2 ?_
        rw [logWateringEnd_findEvent_ne configured (updateOk a.id) now store a.id e.id hne]
        exact hfind
      · simp only [hoffa, Bool.false_eq_true, if_false]
        exact ih _ htail hmem2 hfind

theorem stopLoop_findEvent_offFailed (configured : Bool) (offOk updateOk : String → Bool)
    (now : ℚ) (l store : List StoredEvent) (e : StoredEvent)
    (hnd : (l.map (fun r => r.id)).Nodup) (hmem : e ∈ l)
    (hoff : offOk e.id = false)
    (hfind : findEvent e.id store = some e) :
    findEvent e.id (stopLoop configured offOk updateOk now l store).store = some e := by
  induction l generalizing store with
  | nil => cases hmem
  | cons a rest ih =>
    have hnd2 : (a.id :: rest.map (fun r => r.id)).Nodup := by
      rw [List.map_cons] at hnd
      exact hnd
    have hhead : a.id ∉ rest.map (fun r => r.id) := (List.nodup_cons.mp hnd2).1
    have htail : (rest.map (fun r => r.id)).Nodup := (List.nodup_cons.mp hnd2).2
    rcases List.mem_cons.mp hmem with rfl | hmem2
    · unfold stopLoop
      simp only [hoff, Bool.false_eq_true, if_false]
      rw [stopLoop_findEvent_untouched configured offOk updateOk now rest _ e.id
        (fun x hx hc => hhead (by rw [← hc]; exact List.mem_map_of_mem _ hx))]
      exact hfind
    · have hne : a.id ≠ e.id := by
        intro hc
        exact hhead (by rw [hc]; exact List.mem_map_of_mem _ hmem2)
      unfold stopLoop
      by_cases hoffa : offOk a.id = true
      · simp only [hoffa, if_true]
        refine ih _ htail hmem2 ?_
        rw [logWateringEnd_findEvent_ne configured (updateOk a.id) now store a.id e.id hne]
        exact hfind
      · simp only [hoffa, Bool.false_eq_true, if_false]
        exact ih _ htail hmem2 hfind

theorem stopLoop_commands (configured : Bool) (offOk updateOk : String → Bool)
    (now : ℚ) (l store : List StoredEvent) :
    (stopLoop configured offOk updateOk now l store).commands =
      List.replicate l.length offCommand := by
  induction l generalizing store with
  | nil => rfl
  | cons a rest ih =>
    unfold stopLoop
    by_cases hoffa : offOk a.id = true <;>
      simp [hoffa, ih, List.replicate_succ]

theorem stopLoop_errors (configured : Bool) (offOk updateOk : String → Bool)
    (now : ℚ) (l store : List StoredEvent) :
    (stopLoop configured offOk updateOk now l store).errors =
      (l.filter (fun x => !offOk x.id)).map (fun x => x.id) := by
  induction l generalizing store with
  | nil => rfl
  | cons a rest ih =>
    unfold stopLoop
    by_cases hoffa : offOk a.id = true <;>
      simp [hoffa, ih, List.filter_cons]

theorem closeStaleLoop_findEvent_untouched (updateOk : String → Bool)
    (l store : List StoredEvent) (i : String) (hl : ∀ e ∈ l, e.id ≠ i) :
    findEvent i (closeStaleLoop updateOk l store).2 = findEvent i store := by
  induction l generalizing store with
  | nil => rfl
  | cons a rest ih =>
    have ha : a.id ≠ i := hl a (List.mem_cons_self a rest)
    have hrest : ∀ e ∈ rest, e.id ≠ i := fun e he => hl e (List.mem_cons_of_mem a he)
    unfold closeStaleLoop
    by_cases hupd : updateOk a.id = true
    · simp only [hupd, if_true]
      rw [ih _ hrest]
      exact findEvent_updateEvent_ne i a.id _ store (fun r => rfl) ha
    · simp only [hupd, Bool.false_eq_true, if_false]
      exact ih _ hrest

theorem closeStaleLoop_findEvent_closed (updateOk : String → Bool)
    (l store : List StoredEvent) (e : StoredEvent)
    (hnd : (l.map (fun r => r.id)).Nodup) (hmem : e ∈ l)
    (hupd : updateOk e.id = true) (hfind : findEvent e.id store = some e) :
    findEvent e.id (closeStaleLoop updateOk l store).2 =
      some (closeStaleUpdate e e) := by
  induction l generalizing store with
  | nil => cases hmem
  | cons a rest ih =>
    have hnd2 : (a.id :: rest.map (fun r => r.id)).Nodup := by
      rw [List.map_cons] at hnd
      exact hnd
    have hhead : a.id ∉ rest.map (fun r => r.id) := (List.nodup_cons.mp hnd2).1
    have htail : (rest.map (fun r => r.id)).Nodup := (List.nodup_cons.mp hnd2).2
    rcases List.mem_cons.mp hmem with rfl | hmem2
    · unfold closeStaleLoop
      simp only [hupd, if_true]
      rw [closeStaleLoop_findEvent_untouched updateOk rest _ e.id
        (fun x hx hc => hhead (by rw [← hc]; exact List.mem_map_of_mem _ hx))]
      exact findEvent_updateEvent_self e.id (closeStaleUpdate e) store (fun r => rfl) e
        hfind
    · have hne : a.id ≠ e.id := by
        intro hc
        exact hhead (by rw [hc]; exact List.mem_map_of_mem _ hmem2)
      unfold closeStaleLoop
      by_cases hupda : updateOk a.id = true
      · simp only [hupda, if_true]
        refine ih _ htail hmem2 ?_
        rw [findEvent_updateEvent_ne e.id a.id (closeStaleUpdate a) store (fun r => rfl)
          hne]
        exact hfind
      · simp only [hupda, Bool.false_eq_true, if_false]
        exact ih _ htail hmem2 hfind

theorem closeStaleWateringEvents_commands (configured findOk : Bool)
    (updateOk : String → Bool) (now : ℚ) (store : List StoredEvent) :
    (closeStaleWateringEvents configured findOk updateOk now store).commands = [] := by
  simp only [closeStaleWateringEvents]
  split_ifs <;> rfl

theorem GETauto_reach (env : AutoEnv) (dev : DeviceState)
    (hauth : verifyCronSecret env.cronSecret env.authHeader = true)
    (hhour : (decide (6 ≤ env.currentHour) && decide (env.currentHour < 22)) = true)
    (hactive : hasActiveAutomatedWatering env.supabaseConfigured env.activeQueryOk
      ZONE_ID env.events = false)
    (hsensor : env.sensor = some dev) :
    GETauto env = GETautoAfterSensor env dev := by
  unfold GETauto
  rw [hauth, hhour, hactive, hsensor]
  simp

/-- C4: the check-and-stop route performs no time-window check (its result is the same
for every ambient hour of day); for every session row with null end and a non-null
scheduled end strictly in the past it issues a device off command and sets the end
timestamp and duration on that row; rows not selected (future or null scheduled end, or
already ended) are left untouched. -/
theorem c4_check_and_stop_closes_expired (env : StopEnv) (e : StoredEvent) (t : ℚ)
    (hauth : verifyCronSecret env.cronSecret env.authHeader = true)
    (hconf : env.configured = true) (hq : env.queryOk = true)
    (hnd : (env.events.map (fun r => r.id)).Nodup)
    (hmem : e ∈ env.events) (hend : e.ended_at = none)
    (hsched : e.scheduled_end_at = some t) (hlt : t < env.now)
    (hoff : env.offOk e.id = true) (hupd : env.updateOk e.id = true) :
    (offCommand ∈ (waterCheckGET env).commands ∧
      findEvent e.id (waterCheckGET env).store = some (stopClose env.now e)) ∧
    (∀ e2 ∈ env.events, wateringToStopPred env.now e2 = false →
      findEvent e2.id (waterCheckGET env).store = some e2) ∧
    (∀ h, waterCheckGET { env with currentHour := h } = waterCheckGET env) := by
  have hpred : wateringToStopPred env.now e = true := by
    simp [wateringToStopPred, hend, hsched, hlt]
  have hstop : getWateringToStop env.configured env.queryOk env.now env.events =
      env.events.filter (wateringToStopPred env.now) := by
    simp [getWateringToStop, hconf, hq]
  have hmemStop : e ∈ env.events.filter (wateringToStopPred env.now) :=
    List.mem_filter.mpr ⟨hmem, hpred⟩
  have hne : (env.events.filter (wateringToStopPred env.now)).isEmpty = false := by
    rw [Bool.eq_false_iff]
    intro hc
    rw [List.isEmpty_iff] at hc
    rw [hc] at hmemStop
    cases hmemStop
  have hsub : (env.events.filter (wateringToStopPred env.now)).Sublist env.events :=
    List.filter_sublist env.events
  have hndStop :
      ((env.events.filter (wateringToStopPred env.now)).map (fun r => r.id)).Nodup :=
    List.Nodup.sublist (hsub.map (fun r : StoredEvent => r.id)) hnd
  have hfine : findEvent e.id env.events = some e :=
    findEvent_of_nodup env.events hnd e hmem
  have hw : waterCheckGET env =
      ⟨200,
        (stopLoop env.configured env.offOk env.updateOk env.now
          (env.events.filter (wateringToStopPred env.now)) env.events).errors.isEmpty,
        some "stopped",
        (stopLoop env.configured env.offOk env.updateOk env.now
          (env.events.filter (wateringToStopPred env.now)) env.events).store,
        (stopLoop env.configured env.offOk env.updateOk env.now
          (env.events.filter (wateringToStopPred env.now)) env.events).commands,
        (stopLoop env.configured env.offOk env.updateOk env.now
          (env.events.filter (wateringToStopPred env.now)) env.events).stoppedCount,
        (env.events.filter (wateringToStopPred env.now)).length⟩ := by
    unfold waterCheckGET
    rw [hauth, hstop]
    simp [hne]
  refine ⟨⟨?_, ?_⟩, ?_, ?_⟩
  · rw [hw]
    rw [stopLoop_commands]
    refine List.mem_replicate.mpr ⟨?_, rfl⟩
    intro hc
    rw [List.length_eq_zero] at hc
    rw [hc] at hmemStop
    cases hmemStop
  · rw [hw]
    exact stopLoop_findEvent_closed env.configured env.offOk env.updateOk env.now
      (env.events.filter (wateringToStopPred env.now)) env.events e hndStop hmemStop
      hconf hoff hupd hfine
  · intro e2 he2 hpred2
    rw [hw]
    have hl : ∀ x ∈ env.events.filter (wateringToStopPred env.now), x.id ≠ e2.id := by
      intro x hx hc
      have hx2 := List.mem_filter.mp hx
      have hxe : x = e2 := eq_of_mem_of_id_eq env.events hnd x e2 hx2.1 he2 hc
      rw [hxe] at hx2
      rw [hx2.2] at hpred2
      cases hpred2
    rw [stopLoop_findEvent_untouched env.configured env.offOk env.updateOk env.now
      (env.events.filter (wateringToStopPred env.now)) env.events e2.id hl]
    exact findEvent_of_nodup env.events hnd e2 he2
  · intro h
    rfl

/-- C4 witness: on the concrete store with one expired and one future session, the route
issues the off command and closes the expired row. -/
theorem c4_check_and_stop_closes_expired_witness :
    offCommand ∈ (waterCheckGET c4Env).commands ∧
    findEvent "e1" (waterCheckGET c4Env).store = some (stopClose 1000 c4Expired) :=
  (c4_check_and_stop_closes_expired c4Env c4Expired 100
    (by decide) rfl rfl (by decide) (by decide) rfl rfl (by norm_num [c4Env]) rfl rfl).1

/-- C6: during the check-and-stop sweep, an expired session whose device off command
fails is never updated: the row keeps its null end and no duration is written, and the
route reports failure. -/
theorem c6_failed_stop_not_recorded (env : StopEnv) (e : StoredEvent) (t : ℚ)
    (hauth : verifyCronSecret env.cronSecret env.authHeader = true)
    (hconf : env.configured = true) (hq : env.queryOk = true)
    (hnd : (env.events.map (fun r => r.id)).Nodup)
    (hmem : e ∈ env.events) (hend : e.ended_at = none)
    (hsched : e.scheduled_end_at = some t) (hlt : t < env.now)
    (hoff : env.offOk e.id = false) :
    findEvent e.id (waterCheckGET env).store = some e ∧
    (waterCheckGET env).success = false := by
  have hpred : wateringToStopPred env.now e = true := by
    simp [wateringToStopPred, hend, hsched, hlt]
  have hstop : getWateringToStop env.configured env.queryOk env.now env.events =
      env.events.filter (wateringToStopPred env.now) := by
    simp [getWateringToStop, hconf, hq]
  have hmemStop : e ∈ env.events.filter (wateringToStopPred env.now) :=
    List.mem_filter.mpr ⟨hmem, hpred⟩
  have hne : (env.events.filter (wateringToStopPred env.now)).isEmpty = false := by
    rw [Bool.eq_false_iff]
    intro hc
    rw [List.isEmpty_iff] at hc
    rw [hc] at hmemStop
    cases hmemStop
  have hsub : (env.events.filter (wateringToStopPred env.now)).Sublist env.events :=
    List.filter_sublist env.events
  have hndStop :
      ((env.events.filter (wateringToStopPred env.now)).map (fun r => r.id)).Nodup :=
    List.Nodup.sublist (hsub.map (fun r : StoredEvent => r.id)) hnd
  have hfine : findEvent e.id env.events = some e :=
    findEvent_of_nodup env.events hnd e hmem
  have hw : waterCheckGET env =
      ⟨200,
        (stopLoop env.configured env.offOk env.updateOk env.now
          (env.events.filter (wateringToStopPred env.now)) env.events).errors.isEmpty,
        some "stopped",
        (stopLoop env.configured env.offOk env.updateOk env.now
          (env.events.filter (wateringToStopPred env.now)) env.events).store,
        (stopLoop env.configured env.offOk env.updateOk env.now
          (env.events.filter (wateringToStopPred env.now)) env.events).commands,
        (stopLoop env.configured env.offOk env.updateOk env.now
          (env.events.filter (wateringToStopPred env.now)) env.events).stoppedCount,
        (env.events.filter (wateringToStopPred env.now)).length⟩ := by
    unfold waterCheckGET
    rw [hauth, hstop]
    simp [hne]
  constructor
  · rw [hw]
    exact stopLoop_findEvent_offFailed env.configured env.offOk env.updateOk env.now
      (env.events.filter (wateringToStopPred env.now)) env.events e hndStop hmemStop
      hoff hfine
  · rw [hw]
    show (stopLoop env.configured env.offOk env.updateOk env.now
      (env.events.filter (wateringToStopPred env.now)) env.events).errors.isEmpty = false
    rw [stopLoop_errors]
    rw [Bool.eq_false_iff]
    intro hc
    rw [List.isEmpty_iff] at hc
    have hmemErr : e.id ∈ ((env.events.filter (wateringToStopPred env.now)).filter
        (fun x => !env.offOk x.id)).map (fun x => x.id) :=
      List.mem_map_of_mem _ (List.mem_filter.mpr ⟨hmemStop, by rw [hoff]; rfl⟩)
    rw [hc] at hmemErr
    cases hmemErr

/-- C10: every device command the check-and-stop route sends is an off command to the
hard-coded front-tap id, one per expired session, regardless of the zones the expired
rows refer to. -/
theorem c10_stop_always_front_tap (env : StopEnv)
    (hauth : verifyCronSecret env.cronSecret env.authHeader = true) :
    (waterCheckGET env).commands =
      List.replicate
        (getWateringToStop env.configured env.queryOk env.now env.events).length
        offCommand ∧
    ∀ c ∈ (waterCheckGET env).commands, c.deviceId = FRONT_TAP_DEVICE_ID := by
  have hcmd : (waterCheckGET env).commands =
      List.replicate
        (getWateringToStop env.configured env.queryOk env.now env.events).length
        offCommand := by
    simp only [waterCheckGET, hauth, Bool.not_true, Bool.false_eq_true, if_false]
    by_cases hne : (getWateringToStop env.configured env.queryOk env.now
        env.events).isEmpty = true
    · rw [if_pos hne]
      rw [List.isEmpty_iff.mp hne]
      rfl
    · rw [if_neg hne]
      exact stopLoop_commands env.configured env.offOk env.updateOk env.now _ env.events
  refine ⟨hcmd, ?_⟩
  intro c hc
  rw [hcmd] at hc
  rw [(List.eq_of_mem_replicate hc)]
  rfl

/-- C6 witness: with the off command failing, the expired row is returned unchanged
(end still null) and the route reports failure. -/
theorem c6_failed_stop_not_recorded_witness :
    findEvent "e1" (waterCheckGET c6Env).store = some c4Expired ∧
    (waterCheckGET c6Env).success = false :=
  c6_failed_stop_not_recorded c6Env c4Expired 100 (by decide) rfl rfl (by decide)
    (by decide) rfl rfl (by norm_num [c6Env]) rfl

/-- C10 witness: two expired sessions in different zones produce exactly two off
commands, both to the front-tap device. -/
theorem c10_stop_always_front_tap_witness :
    (waterCheckGET c10Env).commands = List.replicate 2 offCommand := by
  have h := (c10_stop_always_front_tap c10Env (by decide)).1
  rw [h]
  decide

theorem closeStale_untouched (now : ℚ) (store : List StoredEvent) (findOk : Bool)
    (updateOk : String → Bool) (hnd : (store.map (fun r => r.id)).Nodup)
    (e : StoredEvent) (hmem : e ∈ store) (hp : stalePred now e = false) :
    findEvent e.id (closeStaleWateringEvents true findOk updateOk now store).store =
      some e := by
  have hbase : findEvent e.id store = some e := findEvent_of_nodup store hnd e hmem
  cases findOk with
  | false => simpa [closeStaleWateringEvents] using hbase
  | true =>
    simp only [closeStaleWateringEvents, Bool.not_true, Bool.false_eq_true, if_false]
    by_cases hne : (store.filter (stalePred now)).isEmpty = true
    · rw [if_pos hne]
      exact hbase
    · rw [if_neg hne]
      have hl : ∀ x ∈ store.filter (stalePred now), x.id ≠ e.id := by
        intro x hx hc
        have hx2 := List.mem_filter.mp hx
        have hxe : x = e := eq_of_mem_of_id_eq store hnd x e hx2.1 hmem hc
        rw [hxe] at hx2
        rw [hx2.2] at hp
        cases hp
      show findEvent e.id (closeStaleLoop updateOk (store.filter (stalePred now))
        store).2 = some e
      rw [closeStaleLoop_findEvent_untouched updateOk _ store e.id hl]
      exact hbase

theorem closeStale_closed (now : ℚ) (store : List StoredEvent)
    (updateOk : String → Bool) (hnd : (store.map (fun r => r.id)).Nodup)
    (e : StoredEvent) (hmem : e ∈ store) (hp : stalePred now e = true)
    (hupd : updateOk e.id = true) :
    findEvent e.id (closeStaleWateringEvents true true updateOk now store).store =
      some (closeStaleUpdate e e) := by
  have hbase : findEvent e.id store = some e := findEvent_of_nodup store hnd e hmem
  have hmemS : e ∈ store.filter (stalePred now) := List.mem_filter.mpr ⟨hmem, hp⟩
  have hne : (store.filter (stalePred now)).isEmpty = false := by
    rw [Bool.eq_false_iff]
    intro hc
    rw [List.isEmpty_iff] at hc
    rw [hc] at hmemS
    cases hmemS
  have hsub : (store.filter (stalePred now)).Sublist store :=
    List.filter_sublist store
  have hndS : ((store.filter (stalePred now)).map (fun r => r.id)).Nodup :=
    List.Nodup.sublist (hsub.map (fun r : StoredEvent => r.id)) hnd
  simp only [closeStaleWateringEvents, Bool.not_true, Bool.false_eq_true, if_false]
  rw [if_neg (by rw [hne]; exact Bool.false_ne_true)]
  show findEvent e.id (closeStaleLoop updateOk (store.filter (stalePred now))
    store).2 = some (closeStaleUpdate e e)
  exact closeStaleLoop_findEvent_closed updateOk _ store e hndS hmemS hupd hbase

/-- C8: a stale-reconciliation sweep leaves every already-ended row untouched (so a
session closed by stop is never mutated by a later sweep), leaves active rows younger
than the four-hour threshold untouched, closes each selected stale row with the
estimated end (start plus 30 minutes) and 1800-second duration, and issues no device
command. -/
theorem c8_stale_reconciliation (now : ℚ) (store : List StoredEvent)
    (findOk : Bool) (updateOk : String → Bool)
    (hnd : (store.map (fun r => r.id)).Nodup) :
    (∀ e ∈ store, ∀ x : ℚ, e.ended_at = some x →
      findEvent e.id (closeStaleWateringEvents true findOk updateOk now store).store =
        some e) ∧
    (∀ e ∈ store, e.ended_at = none → ¬(e.started_at < now - 4 * 60 * 60 * 1000) →
      findEvent e.id (closeStaleWateringEvents true findOk updateOk now store).store =
        some e) ∧
    (∀ e ∈ store, e.ended_at = none → e.started_at < now - 4 * 60 * 60 * 1000 →
      updateOk e.id = true → findOk = true →
      findEvent e.id (closeStaleWateringEvents true findOk updateOk now store).store =
        some { e with ended_at := some (e.started_at + 30 * 60 * 1000),
                      duration_seconds := some 1800 }) ∧
    (closeStaleWateringEvents true findOk updateOk now store).commands = [] := by
  refine ⟨?_, ?_, ?_, ?_⟩
  · intro e hmem x hx
    refine closeStale_untouched now store findOk updateOk hnd e hmem ?_
    simp [stalePred, hx]
  · intro e hmem hend hns
    refine closeStale_untouched now store findOk updateOk hnd e hmem ?_
    simp [stalePred, hend, hns]
  · intro e hmem hend hs hupd hfok
    subst hfok
    have hp : stalePred now e = true := by
      simp [stalePred, hend, hs]
    exact closeStale_closed now store updateOk hnd e hmem hp hupd
  · exact closeStaleWateringEvents_commands true findOk updateOk now store

/-- C8 witness: at now = 90000000 ms the open six-hour-old row is closed with the
30-minute estimate, the already-closed row is untouched, and no command is issued. -/
theorem c8_stale_reconciliation_witness :
    findEvent "s2" (closeStaleWateringEvents true true (fun _ => true) 90000000
        c8Store).store = some ⟨"s2", "zone-1", 0, some 1800000, some 1800, none, "manual"⟩ ∧
    findEvent "s1" (closeStaleWateringEvents true true (fun _ => true) 90000000
        c8Store).store =
      some ⟨"s1", "zone-1", 68400000, some 70200000, some 1800, none, "automated"⟩ ∧
    (closeStaleWateringEvents true true (fun _ => true) 90000000 c8Store).commands =
      [] := by
  have h := c8_stale_reconciliation 90000000 c8Store true (fun _ => true) (by decide)
  refine ⟨?_, ?_, h.2.2.2⟩
  · exact h.1 ⟨"s2", "zone-1", 0, some 1800000, some 1800, none, "manual"⟩ (by decide)
      1800000 rfl
  · have h2 := h.2.2.1 ⟨"s1", "zone-1", 68400000, none, none, none, "automated"⟩
      (by decide) rfl (by norm_num) rfl rfl
    rw [h2]
    simp only [Option.some_inj, StoredEvent.mk.injEq]
    norm_num

/-- C7: a credential fetched at time T with provider-reported validity `expire_time`
seconds (absolute expiry E = T + expire_time·1000 ms) is cached with stored expiry
E − margin (margin 60000 ms); every call while now < E − margin returns the cached
token and leaves the cache unchanged; once now ≥ E − margin the next call fetches a
fresh credential before returning.  The cache is the only state the function touches:
it is passed in and returned explicitly, and no other component sees it. -/
theorem c7_token_cache_reuse :
    (∀ (tfetch : ℚ) (r : TuyaTokenResult),
      getAccessToken true tfetch (Except.ok r) none =
        Except.ok (r.access_token,
          some ⟨r.access_token,
            (tfetch + r.expire_time * 1000) - TOKEN_SAFETY_MARGIN_MS⟩)) ∧
    (∀ (now : ℚ) (fetch : Except String TuyaTokenResult) (c : CachedToken),
      now < c.expiry →
      getAccessToken true now fetch (some c) = Except.ok (c.token, some c)) ∧
    (∀ (now : ℚ) (r : TuyaTokenResult) (c : CachedToken),
      c.expiry ≤ now →
      getAccessToken true now (Except.ok r) (some c) =
        Except.ok (r.access_token,
          some ⟨r.access_token,
            (now + r.expire_time * 1000) - TOKEN_SAFETY_MARGIN_MS⟩)) := by
  refine ⟨?_, ?_, ?_⟩
  · intro tfetch r
    rfl
  · intro now fetch c h
    simp [getAccessToken, h]
  · intro now r c h
    simp [getAccessToken, fetchAndCache, not_lt.mpr h]

/-- C7 witness: a token fetched at time 0 with 7200-second validity is cached with
expiry 7140000 ms; at now = 7000000 the cached token is reused unchanged; at
now = 7140000 a fresh token is fetched and cached. -/
theorem c7_token_cache_reuse_witness :
    getAccessToken true 0 (Except.ok ⟨"tokA", 7200, "r", "u"⟩) none =
      Except.ok ("tokA", some ⟨"tokA", 7140000⟩) ∧
    getAccessToken true 7000000 (Except.error "unused")
        (some ⟨"tokA", 7140000⟩) = Except.ok ("tokA", some ⟨"tokA", 7140000⟩) ∧
    getAccessToken true 7140000 (Except.ok ⟨"tokB", 7200, "r", "u"⟩)
        (some ⟨"tokA", 7140000⟩) =
      Except.ok ("tokB", some ⟨"tokB", 14280000⟩) := by
  have h := c7_token_cache_reuse
  refine ⟨?_, ?_, ?_⟩
  · have h1 := h.1 0 ⟨"tokA", 7200, "r", "u"⟩
    rw [h1]
    norm_num [TOKEN_SAFETY_MARGIN_MS]
  · exact h.2.1 7000000 (Except.error "unused") ⟨"tokA", 7140000⟩ (by norm_num)
  · have h3 := h.2.2 7140000 ⟨"tokB", 7200, "r", "u"⟩ ⟨"tokA", 7140000⟩ (by norm_num)
    rw [h3]
    norm_num [TOKEN_SAFETY_MARGIN_MS]

theorem GETautoAfterMoisture_inserts (env : AutoEnv) (m : JSNum)
    (h : (GETautoAfterMoisture env m).sessionInserts ≠ []) :
    env.turnOnOk = true ∧ (GETautoAfterMoisture env m).commands = [onCommand] := by
  obtain ⟨cs, ah, ch, sc, aq, ev, sensor, tap, ton, gk, adv, ins, nid, tnow⟩ := env
  by_cases hsw : (getAIWateringDecision gk m adv).shouldWater = true
  · cases tap with
    | none => simp [GETautoAfterMoisture, hsw] at h
    | some tapDev =>
      obtain ⟨online, status⟩ := tapDev
      cases online with
      | false => simp [GETautoAfterMoisture, hsw] at h
      | true =>
        cases ton with
        | false => simp [GETautoAfterMoisture, hsw] at h
        | true => exact ⟨rfl, by simp [GETautoAfterMoisture, hsw]⟩
  · simp only [Bool.not_eq_true] at hsw
    simp [GETautoAfterMoisture, hsw] at h

theorem GETauto_inserts (env : AutoEnv)
    (h : (GETauto env).sessionInserts ≠ []) :
    env.turnOnOk = true ∧ (GETauto env).commands = [onCommand] := by
  by_cases h1 : verifyCronSecret env.cronSecret env.authHeader = true
  · by_cases h2 : (decide (6 ≤ env.currentHour) && decide (env.currentHour < 22)) = true
    · by_cases h3 : hasActiveAutomatedWatering env.supabaseConfigured env.activeQueryOk
          ZONE_ID env.events = true
      · simp [GETauto, h1, h2, h3] at h
      · simp only [Bool.not_eq_true] at h3
        cases hs : env.sensor with
        | none => simp [GETauto, h1, h2, h3, hs] at h
        | some dev =>
          cases hm : getStatusValue dev.status MOISTURE_CODES with
          | none => simp [GETauto, GETautoAfterSensor, h1, h2, h3, hs, hm] at h
          | some m =>
            have hred : GETauto env = GETautoAfterMoisture env m := by
              rw [GETauto_reach env dev h1 h2 h3 hs]
              unfold GETautoAfterSensor
              rw [hm]
            rw [hred] at h ⊢
            exact GETautoAfterMoisture_inserts env m h
    · simp only [Bool.not_eq_true] at h2
      simp [GETauto, h1, h2] at h
  · simp only [Bool.not_eq_true] at h1
    simp [GETauto, h1] at h

/-- C5: a session row is created only after the on command succeeded (any invocation
that created a row had a successful on command); on the reached watering path, a failed
on command produces an error result with no session row, and a successful one creates
exactly the row whose scheduled end is the start time plus the decided duration in
minutes. -/
theorem c5_session_only_after_on_success (env : AutoEnv) (dev tapDev : DeviceState)
    (m : JSNum)
    (hauth : verifyCronSecret env.cronSecret env.authHeader = true)
    (hhour : (decide (6 ≤ env.currentHour) && decide (env.currentHour < 22)) = true)
    (hactive : hasActiveAutomatedWatering env.supabaseConfigured env.activeQueryOk
      ZONE_ID env.events = false)
    (hsensor : env.sensor = some dev)
    (hmoist : getStatusValue dev.status MOISTURE_CODES = some m)
    (hsw : (getAIWateringDecision env.geminiKeySet m env.advisory).shouldWater = true)
    (htap : env.tap = some tapDev) (honline : tapDev.online = true) :
    (∀ env2 : AutoEnv, (GETauto env2).sessionInserts ≠ [] → env2.turnOnOk = true) ∧
    (env.turnOnOk = false →
      GETauto env =
        ⟨500, false, none, none, some "Failed to turn on water", [onCommand], []⟩) ∧
    (env.turnOnOk = true →
      GETauto env =
        ⟨200, true, some "started", none, none, [onCommand],
          (startScheduledWatering env.supabaseConfigured env.insertOk env.newId env.now
            ZONE_ID ZONE_NAME FRONT_TAP_DEVICE_ID
            (getAIWateringDecision env.geminiKeySet m env.advisory).durationMinutes).2⟩) ∧
    (env.turnOnOk = true → env.supabaseConfigured = true → env.insertOk = true →
      (GETauto env).sessionInserts =
        [⟨env.newId, ZONE_ID, env.now, none, none,
          some (env.now +
            (getAIWateringDecision env.geminiKeySet m env.advisory).durationMinutes
              * 60 * 1000),
          "automated"⟩]) := by
  have hreach : GETauto env = GETautoAfterSensor env dev :=
    GETauto_reach env dev hauth hhour hactive hsensor
  have hAS : GETautoAfterSensor env dev = GETautoAfterMoisture env m := by
    unfold GETautoAfterSensor
    rw [hmoist]
  have hfail : env.turnOnOk = false →
      GETauto env =
        ⟨500, false, none, none, some "Failed to turn on water", [onCommand], []⟩ := by
    intro hturn
    rw [hreach, hAS]
    unfold GETautoAfterMoisture
    simp only [hsw, Bool.not_true, Bool.false_eq_true, if_false, htap, honline, hturn,
      Bool.not_false, if_true]
  have hok : env.turnOnOk = true →
      GETauto env =
        ⟨200, true, some "started", none, none, [onCommand],
          (startScheduledWatering env.supabaseConfigured env.insertOk env.newId env.now
            ZONE_ID ZONE_NAME FRONT_TAP_DEVICE_ID
            (getAIWateringDecision env.geminiKeySet m env.advisory).durationMinutes).2⟩
      := by
    intro hturn
    rw [hreach, hAS]
    unfold GETautoAfterMoisture
    simp only [hsw, Bool.not_true, Bool.false_eq_true, if_false, htap, honline, hturn]
  refine ⟨fun env2 h2 => (GETauto_inserts env2 h2).1, hfail, hok, ?_⟩
  intro hturn hconf hins
  rw [hok hturn]
  show (startScheduledWatering env.supabaseConfigured env.insertOk env.newId env.now
    ZONE_ID ZONE_NAME FRONT_TAP_DEVICE_ID
    (getAIWateringDecision env.geminiKeySet m env.advisory).durationMinutes).2 = _
  rw [hconf, hins]
  rfl

/-- C5 witness: with the on command succeeding, exactly one session row is created and
its scheduled end is start + 20 minutes. -/
theorem c5_session_only_after_on_success_witness :
    (GETauto c5Env).sessionInserts =
      [⟨"ev1", "zone-1", 0, none, none, some 1200000, "automated"⟩] := by
  have h := (c5_session_only_after_on_success c5Env
    ⟨true, [("humidity", some (TuyaVal.n 20))]⟩ ⟨true, []⟩ (JSNum.num 20)
    rfl (by decide) (by decide) rfl (by decide) (by decide) rfl rfl).2.2.2 rfl rfl rfl
  rw [h]
  simp only [List.cons.injEq, StoredEvent.mk.injEq, Option.some_inj, and_true, true_and]
  norm_num [c5Env, getAIWateringDecision, enforceConstraints, MAX_WATERING_DURATION,
    MIN_WATERING_DURATION, ZONE_ID]

/-- C2 counterexample: the advisory strategy can return shouldWater = false together
with a nonzero duration, and the decision engine passes that duration through: the
clamp only lowers values above the maximum and only raises the duration when
shouldWater is true. -/
theorem c2_counterexample :
    (getAIWateringDecision true (JSNum.num 40)
      (some ⟨false, 25, "rain expected", "high"⟩)).shouldWater = false ∧
    (getAIWateringDecision true (JSNum.num 40)
      (some ⟨false, 25, "rain expected", "high"⟩)).durationMinutes ≠ 0 := by
  constructor
  · rfl
  · decide

/-- C2 (amended): on both fallback strategies a non-watering decision carries duration
0; and whenever the computed decision has shouldWater = false, the entry point returns
action "none" with success, issuing no device command and creating no session row.  On
the advisory path a non-watering decision's durationMinutes is passed through (only
lowered if above the maximum), which is why the original claim's "duration = 0" fails
there. -/
theorem c2_nowater_zero_duration_and_no_command :
    (∀ (m : JSNum) (adv : Option WateringDecision),
      (getAIWateringDecision false m adv).shouldWater = false →
      (getAIWateringDecision false m adv).durationMinutes = 0) ∧
    (∀ m : JSNum,
      (getAIWateringDecision true m none).shouldWater = false →
      (getAIWateringDecision true m none).durationMinutes = 0) ∧
    (∀ (env : AutoEnv) (dev : DeviceState) (m : JSNum),
      verifyCronSecret env.cronSecret env.authHeader = true →
      (decide (6 ≤ env.currentHour) && decide (env.currentHour < 22)) = true →
      hasActiveAutomatedWatering env.supabaseConfigured env.activeQueryOk ZONE_ID
        env.events = false →
      env.sensor = some dev →
      getStatusValue dev.status MOISTURE_CODES = some m →
      (getAIWateringDecision env.geminiKeySet m env.advisory).shouldWater = false →
      GETauto env = ⟨200, true, some "none", none, none, [], []⟩) := by
  refine ⟨?_, ?_, ?_⟩
  · intro m adv hsw
    have hm : jsLt m 35 = false := hsw
    simp [getAIWateringDecision, hm]
  · intro m hsw
    have hm : jsLt m 30 = false := hsw
    simp [getAIWateringDecision, hm]
  · intro env dev m hauth hhour hactive hsensor hmoist hsw
    rw [GETauto_reach env dev hauth hhour hactive hsensor]
    unfold GETautoAfterSensor
    rw [hmoist]
    simp [GETautoAfterMoisture, hsw]

/-- C2 witness: the declined decision yields the action-none response with no command
and no session row. -/
theorem c2_nowater_zero_duration_and_no_command_witness :
    GETauto c2Env = ⟨200, true, some "none", none, none, [], []⟩ :=
  c2_nowater_zero_duration_and_no_command.2.2 c2Env
    ⟨true, [("humidity", some (TuyaVal.n 60))]⟩ (JSNum.num 60)
    rfl (by decide) (by decide) rfl (by decide) (by decide)

/-- C3 (amended): when the moisture value is missing from the sensor status list (no
listed code carries a defined value), the entry point makes no watering decision and
issues no device command, returning an error result.  An unparseable string value,
however, converts to NaN, which is not null: the route then proceeds to a decision
(see the counterexample), so only the missing case fails closed. -/
theorem c3_missing_moisture_fails_closed (env : AutoEnv) (dev : DeviceState)
    (hauth : verifyCronSecret env.cronSecret env.authHeader = true)
    (hhour : (decide (6 ≤ env.currentHour) && decide (env.currentHour < 22)) = true)
    (hactive : hasActiveAutomatedWatering env.supabaseConfigured env.activeQueryOk
      ZONE_ID env.events = false)
    (hsensor : env.sensor = some dev)
    (hmoist : getStatusValue dev.status MOISTURE_CODES = none) :
    GETauto env =
      ⟨500, false, none, none, some "Could not read moisture level", [], []⟩ := by
  rw [GETauto_reach env dev hauth hhour hactive hsensor]
  unfold GETautoAfterSensor
  rw [hmoist]

/-- C3 witness: a missing moisture value produces the error response, no command, no
session row. -/
theorem c3_missing_moisture_fails_closed_witness :
    GETauto c3MissEnv =
      ⟨500, false, none, none, some "Could not read moisture level", [], []⟩ :=
  c3_missing_moisture_fails_closed c3MissEnv
    ⟨true, [("temp_current", some (TuyaVal.n 200))]⟩
    rfl (by decide) (by decide) rfl (by decide)

/-- C3 counterexample: an unparseable moisture string becomes NaN, which is not null,
so the route does not fail closed: it proceeds to the advisory decision and here even
waters — success with action "started" and an on command, not an error result. -/
theorem c3_counterexample :
    getStatusValue [("humidity", some (TuyaVal.s "abc"))] MOISTURE_CODES =
      some JSNum.nan ∧
    (GETauto c3NaNEnv).success = true ∧
    (GETauto c3NaNEnv).action = some "started" ∧
    (GETauto c3NaNEnv).commands = [onCommand] := by
  refine ⟨by decide, ?_, ?_, ?_⟩ <;> decide

/-- C9: the active-session guard returns false when the store is unconfigured and when
the store query errors, and in either case the entry point behaves exactly as if the
zone had no active session (same status, success flag, action, reason, error and
commands as with a healthy empty store): the store failure is not surfaced and the
guard fails open. -/
theorem c9_active_guard_fails_open :
    (∀ (queryOk : Bool) (z : String) (store : List StoredEvent),
      hasActiveAutomatedWatering false queryOk z store = false) ∧
    (∀ (configured : Bool) (z : String) (store : List StoredEvent),
      hasActiveAutomatedWatering configured false z store = false) ∧
    (∀ env : AutoEnv, env.supabaseConfigured = false ∨ env.activeQueryOk = false →
      respOf (GETauto env) = respOf (GETauto (healthyEmptyStore env))) := by
  refine ⟨?_, ?_, ?_⟩
  · intro q z store
    rfl
  · intro c z store
    cases c <;> simp [hasActiveAutomatedWatering]
  · intro env henv
    have h1 : hasActiveAutomatedWatering env.supabaseConfigured env.activeQueryOk
        ZONE_ID env.events = false := by
      rcases henv with h | h
      · rw [h]
        simp [hasActiveAutomatedWatering]
      · rw [h]
        simp [hasActiveAutomatedWatering]
    have h2 : hasActiveAutomatedWatering true true ZONE_ID ([] : List StoredEvent) =
        false := rfl
    by_cases hv : verifyCronSecret env.cronSecret env.authHeader = true
    · by_cases hh : (decide (6 ≤ env.currentHour) && decide (env.currentHour < 22))
          = true
      · cases hs : env.sensor with
        | none => simp [GETauto, respOf, healthyEmptyStore, hv, hh, h1, h2, hs]
        | some dev =>
          cases hm : getStatusValue dev.status MOISTURE_CODES with
          | none => simp [GETauto, GETautoAfterSensor, respOf, healthyEmptyStore, hv, hh, h1, h2, hs, hm]
          | some m =>
            by_cases hsw : (getAIWateringDecision env.geminiKeySet m
                env.advisory).shouldWater = true
            · cases htap : env.tap with
              | none =>
                simp [GETauto, GETautoAfterSensor, GETautoAfterMoisture, respOf, healthyEmptyStore, hv,
                  hh, h1, h2, hs, hm, hsw, htap]
              | some tapDev =>
                by_cases hon : tapDev.online = true
                · by_cases hturn : env.turnOnOk = true
                  · simp [GETauto, GETautoAfterSensor, GETautoAfterMoisture, respOf, healthyEmptyStore,
                      hv, hh, h1, h2, hs, hm, hsw, htap, hon, hturn]
                  · simp only [Bool.not_eq_true] at hturn
                    simp [GETauto, GETautoAfterSensor, GETautoAfterMoisture, respOf, healthyEmptyStore,
                      hv, hh, h1, h2, hs, hm, hsw, htap, hon, hturn]
                · simp only [Bool.not_eq_true] at hon
                  simp [GETauto, GETautoAfterSensor, GETautoAfterMoisture, respOf, healthyEmptyStore,
                    hv, hh, h1, h2, hs, hm, hsw, htap, hon]
            · simp only [Bool.not_eq_true] at hsw
              simp [GETauto, GETautoAfterSensor, GETautoAfterMoisture, respOf, healthyEmptyStore, hv, hh,
                h1, h2, hs, hm, hsw]
      · simp only [Bool.not_eq_true] at hh
        simp [GETauto, respOf, healthyEmptyStore, hv, hh]
    · simp only [Bool.not_eq_true] at hv
      simp [GETauto, respOf, healthyEmptyStore, hv]

/-- C9 witness: with the store unconfigured the response equals the response with a
healthy empty store. -/
theorem c9_active_guard_fails_open_witness :
    respOf (GETauto c9Env) = respOf (GETauto (healthyEmptyStore c9Env)) :=
  c9_active_guard_fails_open.2.2 c9Env (Or.inl rfl)
